import Mathlib

/-!
Verification of `scripts/format_pr.py`, a CLI tool that fetches GitHub pull
request review threads and renders them as a Markdown report.

The script is embedded shallowly:

* JSON values reached through Python `dict.get` are modelled by `JVal`, which
  distinguishes an absent key, an explicit JSON `null`, and a present value,
  so that the exact defaulting behaviour of `.get(k, d)` versus `d[k]` is
  captured.  The `author` key is always present in the GraphQL response (the
  script indexes it directly with `['author']`), so it is modelled as
  `Option String` with `none` standing for JSON `null` (deleted account).
* Each Python `print(x)` is modelled as appending the string `x` to a list of
  output records; the actual byte stream is the records joined with a newline
  after each one (`renderAll`).
* External processes (`git`, `gh`) are modelled by an environment `Env` that
  fixes, for each command the script can run, either its captured stdout
  (`Except.ok`) or its captured stderr for a non-zero exit
  (`Except.error`), mirroring `subprocess.run(..., check=True)` which raises
  `CalledProcessError` on non-zero exit.  The GraphQL response is provided
  already decoded to the thread list found at the fixed nesting path
  `data.repository.pullRequest.reviewThreads.nodes`.
* Python string primitives used by the script (`str.strip`, `str.split`,
  `str.replace`, `int(...)`, substring test `in`) are given executable
  models over `List Char` below.
-/

namespace FormatPr

/-- Value stored under an optional JSON key: the key may be absent, present
with JSON `null`, or present with a value. -/
inductive JVal (α : Type) where
  | absent : JVal α
  | null : JVal α
  | val : α → JVal α
  deriving DecidableEq, Repr

/-- One review comment as returned by the GraphQL query
(`id` is fetched but never read by the formatter, so it is omitted). -/
structure Comment where
  author : Option String
  body : JVal String
  path : JVal String
  line : JVal Int
  diffHunk : JVal String
  url : JVal String
  deriving DecidableEq, Repr

/-- One review thread: resolution flags plus the comment list found at
`thread.comments.nodes`. -/
structure Thread where
  isResolved : Bool
  isOutdated : Bool
  comments : List Comment
  deriving DecidableEq, Repr

/-! ### Models of the Python string primitives used by the script -/

/-- Drop leading characters that belong to `set` (one side of `str.strip`). -/
def stripLeftChars (set : List Char) : List Char → List Char
  | [] => []
  | c :: rest => if c ∈ set then stripLeftChars set rest else c :: rest

/-- Python `s.strip(chars)`: drop characters of `set` from both ends. -/
def pyStrip (set s : List Char) : List Char :=
  (stripLeftChars set ((stripLeftChars set s).reverse)).reverse

/-- Whitespace characters recognised by Python `str.strip()` / `int(...)`
(ASCII subset). -/
def wsChars : List Char := [' ', '\t', '\n', '\r', '\x0b', '\x0c']

/-- Python `s.strip()` on a string. -/
def pyStripWs (s : String) : String := String.mk (pyStrip wsChars s.data)

/-- Python `s.split(sep)` for a non-empty `sep`: split on each non-overlapping
occurrence, scanning left to right.  `fuel` bounds the recursion; it is
initialised to more than the length of `s`, so the `0` case is unreachable. -/
def pySplitFuel (sep : List Char) : Nat → List Char → List Char → List (List Char)
  | _, [], acc => [acc.reverse]
  | 0, s, acc => [acc.reverse ++ s]
  | fuel + 1, c :: rest, acc =>
    if sep.isPrefixOf (c :: rest) then
      acc.reverse :: pySplitFuel sep fuel ((c :: rest).drop sep.length) []
    else
      pySplitFuel sep fuel rest (c :: acc)

/-- Python `s.split(sep)` on strings. -/
def pySplitStr (sep s : String) : List String :=
  (pySplitFuel sep.data (s.data.length + 1) s.data []).map String.mk

/-- Join segments with a separator (Python `sep.join(parts)`). -/
def joinWith (sep : List Char) : List (List Char) → List Char
  | [] => []
  | [x] => x
  | x :: y :: rest => x ++ sep ++ joinWith sep (y :: rest)

/-- Python `s.replace(old, new)` for non-empty `old`: replace every
non-overlapping occurrence, scanning left to right (equal to
`new.join(s.split(old))`). -/
def pyReplaceStr (s old new : String) : String :=
  String.mk (joinWith new.data (pySplitFuel old.data (s.data.length + 1) s.data []))

/-- Boolean substring test (Python `pat in s`), over character lists. -/
def hasSubstrB (pat : List Char) : List Char → Bool
  | [] => pat.isEmpty
  | c :: rest => pat.isPrefixOf (c :: rest) || hasSubstrB pat rest

/-- `pat` occurs as a contiguous substring of `s` (Python `pat in s`). -/
abbrev ContainsStr (s pat : String) : Prop := hasSubstrB pat.data s.data = true

/-- Accumulate decimal digits; `none` as soon as a non-digit appears. -/
def digitsValGo (acc : Nat) : List Char → Option Nat
  | [] => some acc
  | c :: rest =>
    if c.isDigit then digitsValGo (acc * 10 + (c.toNat - 48)) rest else none

/-- Value of a non-empty all-digit character list. -/
def digitsVal : List Char → Option Nat
  | [] => none
  | l => digitsValGo 0 l

/-- Python `int(s)`: strip whitespace, optional sign, then decimal digits;
`none` models the `ValueError` raised on malformed input. -/
def pyInt? (s : String) : Option Int :=
  match pyStrip wsChars s.data with
  | '-' :: rest => (digitsVal rest).map (fun n => -(n : Int))
  | '+' :: rest => (digitsVal rest).map (fun n => (n : Int))
  | l => (digitsVal l).map (fun n => (n : Int))

/-- Byte stream produced by a sequence of `print(x)` calls: each record is
followed by the newline that `print` appends. -/
def renderAll : List String → String
  | [] => ""
  | l :: ls => l ++ "\n" ++ renderAll ls

/-! ### `format_thread` -/

/-- `first_comment['author']['login'] if first_comment['author'] else 'Unknown'`:
the `author` key holds either `null` or an object whose `login` is taken. -/
def authorStr : Option String → String
  | some s => s
  | none => "Unknown"

/-- `c.get(key, dflt)` rendered inside an f-string: an absent key gives the
default, JSON `null` gives Python `None` which `str` renders as `"None"`. -/
def jGetStr (dflt : String) : JVal String → String
  | .absent => dflt
  | .null => "None"
  | .val s => s

/-- `first_comment.get('line', '?')` rendered inside the f-string: `str` is
applied to the integer, to `None`, or the default `'?'` is used. -/
def lineStr : JVal Int → String
  | .absent => "?"
  | .null => "None"
  | .val n => toString n

/-- Python truthiness of `c.get(key, '')` (`if url:` / `if diff_hunk:`):
only a present, non-empty string is truthy. -/
def truthy : JVal String → Bool
  | .val s => !(s == "")
  | _ => false

/-- Status label: `"✅ RESOLVED" if resolved else "⚠️  UNRESOLVED"`, with
`" (outdated)"` appended when the thread's `isOutdated` flag is set. -/
def statusStr (resolved outdated : Bool) : String :=
  (if resolved then "✅ RESOLVED" else "⚠️  UNRESOLVED") ++
    (if outdated then " (outdated)" else "")

/-- Heading printed for a thread whose first comment is `c`:
`f"### [{status}] {author} on `{path}:{line}`\n"`. -/
def threadHeading (t : Thread) (resolved : Bool) (c : Comment) : String :=
  "### [" ++ statusStr resolved t.isOutdated ++ "] " ++ authorStr c.author ++
    " on `" ++ jGetStr "unknown file" c.path ++ ":" ++ lineStr c.line ++ "`\n"

/-- One bullet of the Replies list: `f"- **{reply_author}:** {reply_body}"`. -/
def replyLine (c : Comment) : String :=
  "- **" ++ authorStr c.author ++ ":** " ++ jGetStr "" c.body

/-- `format_thread(thread, resolved)`: the list of `print` records it emits.
A thread with no comments prints nothing and returns early. -/
def format_thread (t : Thread) (resolved : Bool) : List String :=
  match t.comments with
  | [] => []
  | c :: rest =>
    [threadHeading t resolved c]
    ++ (if truthy c.url then ["[View on GitHub](" ++ jGetStr "" c.url ++ ")\n"] else [])
    ++ (if truthy c.diffHunk then
          ["```diff\n" ++ jGetStr "" c.diffHunk ++ "\n```\n"] else [])
    ++ [jGetStr "" c.body ++ "\n"]
    ++ (if rest.isEmpty then []
        else ("**Replies:**\n" :: rest.map replyLine) ++ [""])
    ++ ["---\n"]

/-! ### `format_threads` -/

/-- `sum(1 for t in threads if t['isResolved'])`. -/
def resolvedCount (threads : List Thread) : Nat :=
  threads.countP (fun t => t.isResolved)

/-- `len(threads) - resolved_count`. -/
def unresolvedCount (threads : List Thread) : Nat :=
  threads.length - resolvedCount threads

/-- `[t for t in threads if not t['isResolved']]`. -/
def unresolvedThreads (threads : List Thread) : List Thread :=
  threads.filter (fun t => !t.isResolved)

/-- `[t for t in threads if t['isResolved']]`. -/
def resolvedThreads (threads : List Thread) : List Thread :=
  threads.filter (fun t => t.isResolved)

/-- The three header records printed before the sections. -/
def headerLines (threads : List Thread) : List String :=
  ["# PR Review Comments (" ++ toString threads.length ++ " threads)\n",
   "- **Unresolved:** " ++ toString (unresolvedCount threads),
   "- **Resolved:** " ++ toString (resolvedCount threads) ++ "\n"]

/-- `format_threads(data)` applied to the thread list found at the fixed
nesting path of the decoded response: header, then the unresolved section
(if non-empty), then the resolved section (if non-empty). -/
def format_threads (threads : List Thread) : List String :=
  headerLines threads
  ++ (if (unresolvedThreads threads).isEmpty then []
      else "## Unresolved Comments\n" ::
        (unresolvedThreads threads).flatMap (fun t => format_thread t false))
  ++ (if (resolvedThreads threads).isEmpty then []
      else "## Resolved Comments\n" ::
        (resolvedThreads threads).flatMap (fun t => format_thread t true))

/-! ### `get_repo_info` and the process pipeline -/

/-- Errors the script can raise: `subprocess.CalledProcessError` (carrying the
command and its captured stderr) and `ValueError` (carrying its message). -/
inductive PErr where
  | calledProcess (cmd captured : String)
  | valueError (msg : String)
  deriving DecidableEq, Repr

/-- `url.split('github.com')[-1]`: the text after the last occurrence of the
host marker (the whole string when the marker is absent). -/
def afterHost (url : String) : String :=
  ((pySplitStr "github.com" url).getLast?).getD ""

/-- The segments `parts.split('/')` after
`url.split('github.com')[-1].strip(':/').replace('.git', '')`. -/
def repoSegs (url : String) : List String :=
  pySplitStr "/"
    (pyReplaceStr (String.mk (pyStrip [':', '/'] (afterHost url).data)) ".git" "")

/-- Pure core of `get_repo_info`: parse owner and repo out of the remote URL.
`owner, repo = parts.split('/')[:2]` raises `ValueError` when there are fewer
than two segments; a URL without the marker raises the script's own
`ValueError`. -/
def parseRepoUrl (url : String) : Except PErr (String × String) :=
  if ContainsStr url "github.com" then
    match repoSegs url with
    | owner :: repo :: _ => .ok (owner, repo)
    | _ => .error (.valueError "not enough values to unpack (expected 2)")
  else
    .error (.valueError ("Could not parse GitHub repo from URL: " ++ url))

/-- Outcome of each external command the script can run: captured stdout on
exit 0, captured stderr on non-zero exit (`CalledProcessError`). -/
structure Env where
  gitRemoteUrl : Except String String
  ghPrView : Except String String
  gitBranch : Except String String
  ghApi : String → String → Int → Except String (List Thread)

/-- `get_repo_info()`: read the remote URL (propagating a command failure),
strip it, and parse it. -/
def get_repo_info (env : Env) : Except PErr (String × String) :=
  match env.gitRemoteUrl with
  | .error captured =>
    .error (.calledProcess "git config --get remote.origin.url" captured)
  | .ok out => parseRepoUrl (pyStripWs out)

/-- `get_pr_number()`: `None` when `gh pr view` exits non-zero (the exception
is caught); otherwise `int(output.strip())`, whose `ValueError` propagates. -/
def get_pr_number (env : Env) : Except PErr (Option Int) :=
  match env.ghPrView with
  | .error _ => .ok none
  | .ok out =>
    match pyInt? out with
    | some n => .ok (some n)
    | none => .error (.valueError ("invalid literal for int: " ++ pyStripWs out))

/-- `fetch_review_threads(owner, repo, pr_number)`: one `gh api graphql`
invocation; the response is modelled already decoded to its thread list. -/
def fetch_review_threads (env : Env) (owner repo : String) (pr : Int) :
    Except PErr (List Thread) :=
  match env.ghApi owner repo pr with
  | .error captured => .error (.calledProcess "gh api graphql" captured)
  | .ok threads => .ok threads

/-- How the `try` block of `main` ends: an explicit `sys.exit(code)`
(`SystemExit` is not an `Exception`, so it escapes the handlers), normal
completion, or a raised error. -/
inductive MainResult where
  | exited (code : Nat)
  | finished
  | err (e : PErr)
  deriving DecidableEq, Repr

/-- Steps of `main` after the PR number is known: resolve the repository,
fetch the threads, format them onto stdout. -/
def afterPr (env : Env) (pr : Int) : MainResult × List String × List String :=
  match get_repo_info env with
  | .error e => (.err e, [], [])
  | .ok (owner, repo) =>
    match fetch_review_threads env owner repo pr with
    | .error e => (.err e, [], [])
    | .ok threads => (.finished, format_threads threads, [])

/-- The `try` block of `main`: `argv` is `sys.argv[1:]`.  Returns how the
block ended together with the records printed to stdout and to stderr. -/
def mainBody (argv : List String) (env : Env) :
    MainResult × List String × List String :=
  match argv with
  | a :: _ =>
    match pyInt? a with
    | some pr => afterPr env pr
    | none => (.err (.valueError ("invalid literal for int: " ++ a)), [], [])
  | [] =>
    match get_pr_number env with
    | .error e => (.err e, [], [])
    | .ok (some pr) => afterPr env pr
    | .ok none =>
      match env.gitBranch with
      | .error captured =>
        (.err (.calledProcess "git branch --show-current" captured), [], [])
      | .ok out =>
        (.exited 0, [],
          ["No pull request found for branch \x27" ++ pyStripWs out ++ "\x27",
           "\nTo view comments for a specific PR, use: make pr-comments PR=<number>",
           "Or run: ./scripts/format_pr.py <PR_NUMBER>"])

/-- `main()` with its exception handlers: the result is the process exit code,
the stdout records and the stderr records.  A `CalledProcessError` is reported
with the command and its captured stderr; any other exception with its
message; both exit 1. -/
def mainRun (argv : List String) (env : Env) : Nat × List String × List String :=
  match mainBody argv env with
  | (.exited code, out, errs) => (code, out, errs)
  | (.finished, out, errs) => (0, out, errs)
  | (.err (.calledProcess cmd captured), out, errs) =>
    (1, out, errs ++ ["Error running command: " ++ cmd, "Output: " ++ captured])
  | (.err (.valueError msg), out, errs) =>
    (1, out, errs ++ ["Error: " ++ msg])

/-! ### Helper lemmas about the substring test -/

theorem isPrefixOf_append_self (p b : List Char) : p.isPrefixOf (p ++ b) = true := by
  induction p with
  | nil => simp [List.isPrefixOf]
  | cons c cs ih => simp [List.isPrefixOf, ih]

theorem isPrefixOf_append_of {p s : List Char} (t : List Char)
    (h : p.isPrefixOf s = true) : p.isPrefixOf (s ++ t) = true := by
  induction p generalizing s with
  | nil => simp [List.isPrefixOf]
  | cons c cs ih =>
    cases s with
    | nil => simp [List.isPrefixOf] at h
    | cons d ds =>
      simp only [List.isPrefixOf, Bool.and_eq_true] at h
      simp [List.isPrefixOf, h.1, ih h.2]

theorem hasSubstrB_nil_pat (l : List Char) : hasSubstrB [] l = true := by
  induction l with
  | nil => rfl
  | cons c rest ih => simp [hasSubstrB, List.isPrefixOf]

theorem hasSubstrB_cons {p rest : List Char} (c : Char)
    (h : hasSubstrB p rest = true) : hasSubstrB p (c :: rest) = true := by
  simp [hasSubstrB, h]

theorem hasSubstrB_of_isPrefixOf {p s : List Char}
    (h : p.isPrefixOf s = true) : hasSubstrB p s = true := by
  cases s with
  | nil =>
    cases p with
    | nil => rfl
    | cons c cs => simp [List.isPrefixOf] at h
  | cons d ds => simp [hasSubstrB, h]

theorem hasSubstrB_append_left {p t : List Char} (s : List Char)
    (h : hasSubstrB p t = true) : hasSubstrB p (s ++ t) = true := by
  induction s with
  | nil => exact h
  | cons c rest ih => exact hasSubstrB_cons c ih

theorem hasSubstrB_append_right {p s : List Char} (t : List Char)
    (h : hasSubstrB p s = true) : hasSubstrB p (s ++ t) = true := by
  induction s with
  | nil =>
    have hp : p = [] := by
      cases p with
      | nil => rfl
      | cons c cs => simp [hasSubstrB, List.isEmpty] at h
    rw [hp]; exact hasSubstrB_nil_pat t
  | cons c rest ih =>
    simp only [hasSubstrB, Bool.or_eq_true] at h
    rcases h with h | h
    · simp only [List.cons_append, hasSubstrB, Bool.or_eq_true]
      exact Or.inl (isPrefixOf_append_of t h)
    · simp only [List.cons_append, hasSubstrB, Bool.or_eq_true]
      exact Or.inr (ih h)

theorem containsStr_of_data {s p : String} (a b : List Char)
    (h : s.data = a ++ (p.data ++ b)) : ContainsStr s p := by
  show hasSubstrB p.data s.data = true
  rw [h]
  exact hasSubstrB_append_left a
    (hasSubstrB_of_isPrefixOf (isPrefixOf_append_self p.data b))

theorem containsStr_renderAll {lines : List String} {x p : String}
    (hx : x ∈ lines) (h : ContainsStr x p) : ContainsStr (renderAll lines) p := by
  induction lines with
  | nil => cases hx
  | cons l ls ih =>
    have hdata : (renderAll (l :: ls)).data =
        (l.data ++ "\n".data) ++ (renderAll ls).data := by
      simp [renderAll, String.data_append]
    rcases List.mem_cons.mp hx with rfl | hx
    · show hasSubstrB p.data (renderAll (x :: ls)).data = true
      rw [hdata]
      exact hasSubstrB_append_right _ (hasSubstrB_append_right _ h)
    · show hasSubstrB p.data (renderAll (l :: ls)).data = true
      rw [hdata]
      exact hasSubstrB_append_left _ (ih hx)

/-! ### Helper lemmas about lists -/

theorem length_filter_not_add_length_filter (p : α → Bool) (l : List α) :
    (l.filter fun a => !p a).length + (l.filter p).length = l.length := by
  induction l with
  | nil => rfl
  | cons a l ih =>
    by_cases h : p a = true
    · simp [List.filter, h, ← ih]; omega
    · simp only [Bool.not_eq_true] at h
      simp [List.filter, h, ← ih]; omega

theorem isEmpty_eq_false_of_mem {l : List α} {a : α} (h : a ∈ l) :
    l.isEmpty = false := by
  cases l with
  | nil => cases h
  | cons b bs => rfl

/-! ### Claim C1 -/

/-- C1: `format_threads` partitions the fetched thread collection strictly on
the resolved flag: the two partitions' lengths sum to the collection's length,
the header record displays the fetched count, and each partition is a
subsequence of the collection in its original order. -/
theorem c1_partition (T : List Thread) :
    (unresolvedThreads T).length + (resolvedThreads T).length = T.length
    ∧ (format_threads T).head? =
        some ("# PR Review Comments (" ++ toString T.length ++ " threads)\n")
    ∧ (unresolvedThreads T).Sublist T
    ∧ (resolvedThreads T).Sublist T := by
  refine ⟨?_, ?_, List.filter_sublist T, List.filter_sublist T⟩
  · unfold unresolvedThreads resolvedThreads
    exact length_filter_not_add_length_filter (fun t => t.isResolved) T
  · simp [format_threads, headerLines]

/-! ### Claim C3 -/

/-- Thread whose single comment has a `null` author, an absent `path` key and
a `null` line. -/
def c3NullLine : Thread :=
  ⟨false, false, [⟨none, .absent, .absent, .null, .absent, .absent⟩]⟩

/-- Same, but the `line` key is absent rather than `null`. -/
def c3AbsentLine : Thread :=
  ⟨false, false, [⟨none, .absent, .absent, .absent, .absent, .absent⟩]⟩

/-- C3: a null author renders as `Unknown` and an absent path as
`unknown file`, and an absent line key as `?` — but a `null` line value is
rendered as `None`, because `first_comment.get('line', '?')` only applies its
default for a missing key, not for `None`. -/
theorem c3_line_default_bug :
    format_thread c3NullLine false =
      ["### [⚠️  UNRESOLVED] Unknown on `unknown file:None`\n", "\n", "---\n"]
    ∧ format_thread c3AbsentLine false =
      ["### [⚠️  UNRESOLVED] Unknown on `unknown file:?`\n", "\n", "---\n"] :=
  ⟨rfl, rfl⟩

/-! ### Claim C8 -/

theorem eq_append_drop_of_isPrefixOf {p l : List Char}
    (h : p.isPrefixOf l = true) : l = p ++ l.drop p.length := by
  induction p generalizing l with
  | nil => simp
  | cons a as ih =>
    cases l with
    | nil => simp [List.isPrefixOf] at h
    | cons b bs =>
      simp only [List.isPrefixOf, Bool.and_eq_true, beq_iff_eq] at h
      obtain ⟨rfl, h2⟩ := h
      simp only [List.length_cons, List.drop_succ_cons, List.cons_append]
      exact congrArg (a :: ·) (ih h2)

theorem pySplitFuel_ne_nil (sep : List Char) (fuel : Nat) (s acc : List Char) :
    pySplitFuel sep fuel s acc ≠ [] := by
  induction fuel generalizing s acc with
  | zero => cases s <;> simp [pySplitFuel]
  | succ n ih =>
    cases s with
    | nil => simp [pySplitFuel]
    | cons c rest =>
      by_cases hp : sep.isPrefixOf (c :: rest) = true
      · simp [pySplitFuel, hp]
      · simp only [pySplitFuel, hp, Bool.false_eq_true, if_false]
        exact ih rest (c :: acc)

/-- Splitting on a separator and rejoining with it reconstructs the input:
the split segments are exactly the input with its separator occurrences
deleted, interleaved with the separator. -/
theorem joinWith_pySplitFuel (sep : List Char) (fuel : Nat) (s acc : List Char) :
    joinWith sep (pySplitFuel sep fuel s acc) = acc.reverse ++ s := by
  induction fuel generalizing s acc with
  | zero => cases s <;> simp [pySplitFuel, joinWith]
  | succ n ih =>
    cases s with
    | nil => simp [pySplitFuel, joinWith]
    | cons c rest =>
      by_cases hp : sep.isPrefixOf (c :: rest) = true
      · simp only [pySplitFuel, hp, if_true]
        rcases hL : pySplitFuel sep n ((c :: rest).drop sep.length) [] with _ | ⟨y, t⟩
        · exact absurd hL (pySplitFuel_ne_nil sep n _ [])
        · have hJ : joinWith sep (y :: t) = (c :: rest).drop sep.length := by
            rw [← hL]
            simpa using ih ((c :: rest).drop sep.length) []
          rw [joinWith, hJ, List.append_assoc]
          exact congrArg (acc.reverse ++ ·) (eq_append_drop_of_isPrefixOf hp).symm
      · simp only [pySplitFuel, hp, Bool.false_eq_true, if_false]
        rw [ih rest (c :: acc)]
        simp

/-- C8 counterexample: `parts.replace('.git', '')` removes every occurrence of
the substring `.git`, not only a trailing suffix — the repo segment
`widgets.github` comes back as `widgetshub`. -/
theorem c8_counterexample :
    parseRepoUrl "https://github.com/acme/widgets.github" = .ok ("acme", "widgetshub")
    ∧ ("widgetshub" : String) ≠ "widgets.github" :=
  ⟨rfl, by decide⟩

/-- C8 amended: for every remote URL containing the host marker whose
processed remainder yields at least an owner and a repo segment, the resolver
returns the first two segments; and for every stripped remainder, the text
those segments are split from is the remainder with every occurrence of the
substring `.git` deleted (the remainder is exactly the kept parts interleaved
with `.git`).  In particular both documented example URLs resolve to owner
`acme`, repo `widgets`, while an interior `.git` is also removed. -/
theorem c8_amended :
    (∀ (url owner repo : String) (rest : List String),
      ContainsStr url "github.com" →
      repoSegs url = owner :: repo :: rest →
      parseRepoUrl url = .ok (owner, repo))
    ∧ (∀ stripped : List Char, ∃ parts : List (List Char),
        stripped = joinWith ".git".data parts
        ∧ (pyReplaceStr (String.mk stripped) ".git" "").data = joinWith [] parts)
    ∧ parseRepoUrl "git@github.com:acme/widgets.git" = .ok ("acme", "widgets")
    ∧ parseRepoUrl "https://github.com/acme/widgets.git" = .ok ("acme", "widgets")
    ∧ parseRepoUrl "https://github.com/acme/widgets.github" = .ok ("acme", "widgetshub") := by
  refine ⟨?_, ?_, rfl, rfl, rfl⟩
  · intro url owner repo rest hm hseg
    rw [parseRepoUrl, if_pos hm, hseg]
  · intro stripped
    refine ⟨pySplitFuel ".git".data (stripped.length + 1) stripped [], ?_, rfl⟩
    have h := joinWith_pySplitFuel ".git".data (stripped.length + 1) stripped []
    simpa using h.symm

/-- Witness for the universal part of `c8_amended` at a concrete URL with an
interior `.git`. -/
theorem c8_amended_witness :
    ContainsStr "https://github.com/acme/widgets.github" "github.com"
    ∧ repoSegs "https://github.com/acme/widgets.github" = "acme" :: "widgetshub" :: []
    ∧ parseRepoUrl "https://github.com/acme/widgets.github" = .ok ("acme", "widgetshub") :=
  ⟨by decide, by decide,
    c8_amended.1 "https://github.com/acme/widgets.github" "acme" "widgetshub" []
      (by decide) (by decide)⟩

/-! ### Claim C9 -/

/-- C9 counterexample: a URL whose processed remainder splits into three
segments cannot be split into exactly an owner and a repo segment, yet the
resolver succeeds with the first two segments instead of failing. -/
theorem c9_counterexample :
    (repoSegs "https://github.com/a/b/c").length = 3
    ∧ parseRepoUrl "https://github.com/a/b/c" = .ok ("a", "b") :=
  ⟨by decide, rfl⟩

/-- C9 amended: when the remote URL lacks the host marker, or its processed
remainder yields fewer than two slash-separated segments, the resolver raises
a `ValueError` and the process exits with code 1; URLs yielding more than two
segments succeed with the first two. -/
theorem c9_amended (env : Env) (arg raw : String) (n : Int)
    (hn : pyInt? arg = some n)
    (hremote : env.gitRemoteUrl = .ok raw)
    (hcond : ¬ ContainsStr (pyStripWs raw) "github.com"
      ∨ (repoSegs (pyStripWs raw)).length < 2) :
    (∃ msg, get_repo_info env = .error (.valueError msg))
    ∧ (mainRun [arg] env).1 = 1 := by
  have hparse : ∃ msg, parseRepoUrl (pyStripWs raw) = .error (.valueError msg) := by
    by_cases hm : ContainsStr (pyStripWs raw) "github.com"
    · rcases hcond with hmm | hlen
      · exact absurd hm hmm
      · rw [parseRepoUrl, if_pos hm]
        rcases hseg : repoSegs (pyStripWs raw) with _ | ⟨a, _ | ⟨b, rest⟩⟩
        · exact ⟨_, rfl⟩
        · exact ⟨_, rfl⟩
        · rw [hseg] at hlen; simp at hlen; omega
    · rw [parseRepoUrl, if_neg hm]
      exact ⟨_, rfl⟩
  obtain ⟨msg, hmsg⟩ := hparse
  have hinfo : get_repo_info env = .error (.valueError msg) := by
    rw [get_repo_info.eq_def, hremote]
    exact hmsg
  refine ⟨⟨msg, hinfo⟩, ?_⟩
  simp [mainRun, mainBody, hn, afterPr, hinfo]

/-- Environment for the C9 witness: the remote points at a non-GitHub host. -/
def c9Env : Env :=
  ⟨.ok "https://gitlab.com/a/b", .ok "5", .ok "main", fun _ _ _ => .ok []⟩

/-- Witness for `c9_amended` at a concrete environment and argument. -/
theorem c9_amended_witness :
    pyInt? "7" = some 7
    ∧ c9Env.gitRemoteUrl = .ok "https://gitlab.com/a/b"
    ∧ (¬ ContainsStr (pyStripWs "https://gitlab.com/a/b") "github.com"
        ∨ (repoSegs (pyStripWs "https://gitlab.com/a/b")).length < 2)
    ∧ ((∃ msg, get_repo_info c9Env = .error (.valueError msg))
        ∧ (mainRun ["7"] c9Env).1 = 1) :=
  ⟨by decide, rfl, Or.inl (by decide),
    c9_amended c9Env "7" "https://gitlab.com/a/b" 7 (by decide) rfl
      (Or.inl (by decide))⟩

/-! ### Claim C4 -/

/-- Environment for the C4 counterexample: `gh pr view` (the branch-PR
lookup) exits non-zero; every other command succeeds. -/
def c4Env : Env :=
  ⟨.ok "https://github.com/acme/widgets.git", .error "no pull requests found",
    .ok "feature-x", fun _ _ _ => .ok []⟩

/-- C4 counterexample: the branch-PR lookup is an external command of the
hosting CLI; when it exits non-zero and no argument was given, the process
exits 0, not 1 (`get_pr_number` swallows the `CalledProcessError`). -/
theorem c4_counterexample :
    c4Env.ghPrView = .error "no pull requests found"
    ∧ (mainRun [] c4Env).1 = 0 :=
  ⟨rfl, rfl⟩

/-- C4 amended: every external command failure that propagates out of the
pipeline — i.e. any non-zero exit except the branch-PR lookup, whose failure
is treated as "no PR for this branch" — is reported on stderr together with
the command's captured stderr, and the process exits with code 1. -/
theorem c4_amended (argv : List String) (env : Env) (cmd captured : String)
    (out errs : List String)
    (h : mainBody argv env = (.err (.calledProcess cmd captured), out, errs)) :
    (mainRun argv env).1 = 1
    ∧ ("Output: " ++ captured) ∈ (mainRun argv env).2.2 := by
  simp [mainRun, h]

/-- Environment for the C4 witness: `git config` itself fails. -/
def c4wEnv : Env :=
  ⟨.error "fatal: not a git repository", .ok "5", .ok "main",
    fun _ _ _ => .ok []⟩

/-- Witness for `c4_amended`: a failing `git config` propagates and the
process exits 1 with the captured stderr surfaced. -/
theorem c4_amended_witness :
    mainBody ["7"] c4wEnv =
      (.err (.calledProcess "git config --get remote.origin.url"
        "fatal: not a git repository"), [], [])
    ∧ ((mainRun ["7"] c4wEnv).1 = 1
        ∧ ("Output: " ++ "fatal: not a git repository") ∈ (mainRun ["7"] c4wEnv).2.2) :=
  ⟨rfl, c4_amended ["7"] c4wEnv _ _ _ _ rfl⟩

/-! ### Claim C5 -/

/-- C5: with no explicit argument and no PR associated with the current
branch (the branch-PR lookup exits non-zero), the process exits 0, prints
nothing to stdout, and prints to stderr the branch name and both suggested
alternative commands. -/
theorem c5_no_pr (env : Env) (captured branchOut : String)
    (hpr : env.ghPrView = .error captured)
    (hbr : env.gitBranch = .ok branchOut) :
    mainRun [] env =
      (0, [],
        ["No pull request found for branch \x27" ++ pyStripWs branchOut ++ "\x27",
         "\nTo view comments for a specific PR, use: make pr-comments PR=<number>",
         "Or run: ./scripts/format_pr.py <PR_NUMBER>"])
    ∧ ContainsStr
        ("No pull request found for branch \x27" ++ pyStripWs branchOut ++ "\x27")
        (pyStripWs branchOut)
    ∧ ContainsStr
        "\nTo view comments for a specific PR, use: make pr-comments PR=<number>"
        "make pr-comments PR=<number>"
    ∧ ContainsStr "Or run: ./scripts/format_pr.py <PR_NUMBER>"
        "./scripts/format_pr.py <PR_NUMBER>" := by
  refine ⟨?_, ?_, by decide, by decide⟩
  · simp [mainRun, mainBody, get_pr_number, hpr, hbr]
  · exact containsStr_of_data "No pull request found for branch \x27".data
      "\x27".data (by simp [String.data_append, List.append_assoc])

/-- Environment for the C5 witness. -/
def c5Env : Env :=
  ⟨.ok "git@github.com:acme/widgets.git", .error "no pull requests found",
    .ok "feature-x\n", fun _ _ _ => .ok []⟩

/-- Witness for `c5_no_pr` at a concrete environment. -/
theorem c5_no_pr_witness :
    c5Env.ghPrView = .error "no pull requests found"
    ∧ c5Env.gitBranch = .ok "feature-x\n"
    ∧ (mainRun [] c5Env =
        (0, [],
          ["No pull request found for branch \x27" ++ pyStripWs "feature-x\n" ++ "\x27",
           "\nTo view comments for a specific PR, use: make pr-comments PR=<number>",
           "Or run: ./scripts/format_pr.py <PR_NUMBER>"])
      ∧ ContainsStr
          ("No pull request found for branch \x27" ++ pyStripWs "feature-x\n" ++ "\x27")
          (pyStripWs "feature-x\n")
      ∧ ContainsStr
          "\nTo view comments for a specific PR, use: make pr-comments PR=<number>"
          "make pr-comments PR=<number>"
      ∧ ContainsStr "Or run: ./scripts/format_pr.py <PR_NUMBER>"
          "./scripts/format_pr.py <PR_NUMBER>") :=
  ⟨rfl, rfl, c5_no_pr c5Env "no pull requests found" "feature-x\n" rfl rfl⟩

/-! ### Claim C2 -/

theorem containsStr_heading_unres (t : Thread) (c : Comment) :
    ContainsStr (threadHeading t false c) "⚠️  UNRESOLVED" := by
  apply containsStr_of_data "### [".data
    ((if t.isOutdated then " (outdated)" else "").data ++
      ("] " ++ authorStr c.author ++ " on `" ++ jGetStr "unknown file" c.path ++
        ":" ++ lineStr c.line ++ "`\n").data)
  simp [threadHeading, statusStr, String.data_append, List.append_assoc]

theorem containsStr_heading_res (t : Thread) (c : Comment) :
    ContainsStr (threadHeading t true c) "✅ RESOLVED" := by
  apply containsStr_of_data "### [".data
    ((if t.isOutdated then " (outdated)" else "").data ++
      ("] " ++ authorStr c.author ++ " on `" ++ jGetStr "unknown file" c.path ++
        ":" ++ lineStr c.line ++ "`\n").data)
  simp [threadHeading, statusStr, String.data_append, List.append_assoc]

/-- C2: when the collection has at least one unresolved and one resolved
thread, the output is exactly the header followed by the unresolved section
and then the resolved section; a thread lands in the unresolved (resolved)
section exactly when its flag is false (true); and each rendered block starts
with a heading carrying the `⚠️  UNRESOLVED` (`✅ RESOLVED`) label, so a
thread's heading is emitted only inside its own section. -/
theorem c2_sections (T : List Thread)
    (h1 : ∃ t ∈ T, t.isResolved = false) (h2 : ∃ t ∈ T, t.isResolved = true) :
    format_threads T =
      headerLines T
        ++ ("## Unresolved Comments\n" ::
             (unresolvedThreads T).flatMap (fun t => format_thread t false))
        ++ ("## Resolved Comments\n" ::
             (resolvedThreads T).flatMap (fun t => format_thread t true))
    ∧ (∀ t ∈ unresolvedThreads T, t.isResolved = false)
    ∧ (∀ t ∈ resolvedThreads T, t.isResolved = true)
    ∧ (∀ t ∈ unresolvedThreads T, ∀ c cs, t.comments = c :: cs →
        format_thread t false =
          threadHeading t false c :: (format_thread t false).tail
        ∧ ContainsStr (threadHeading t false c) "⚠️  UNRESOLVED")
    ∧ (∀ t ∈ resolvedThreads T, ∀ c cs, t.comments = c :: cs →
        format_thread t true =
          threadHeading t true c :: (format_thread t true).tail
        ∧ ContainsStr (threadHeading t true c) "✅ RESOLVED") := by
  obtain ⟨tu, htu, hru⟩ := h1
  obtain ⟨tr, htr, hrr⟩ := h2
  have hmu : tu ∈ unresolvedThreads T :=
    List.mem_filter.mpr ⟨htu, by simp [hru]⟩
  have hmr : tr ∈ resolvedThreads T :=
    List.mem_filter.mpr ⟨htr, by simp [hrr]⟩
  refine ⟨?_, ?_, ?_, ?_, ?_⟩
  · rw [format_threads, if_neg, if_neg] <;>
      simp [isEmpty_eq_false_of_mem hmu, isEmpty_eq_false_of_mem hmr]
  · intro t ht
    have := (List.mem_filter.mp ht).2
    simpa using this
  · intro t ht
    exact (List.mem_filter.mp ht).2
  · intro t ht c cs hc
    refine ⟨?_, containsStr_heading_unres t c⟩
    rw [format_thread.eq_def, hc]
    exact rfl
  · intro t ht c cs hc
    refine ⟨?_, containsStr_heading_res t c⟩
    rw [format_thread.eq_def, hc]
    exact rfl

/-- First comment of the unresolved thread in the C2 witness. -/
def c2cU : Comment := ⟨some "alice", .val "fix this", .val "a.py", .val 3, .absent, .absent⟩

/-- First comment of the resolved thread in the C2 witness. -/
def c2cR : Comment := ⟨some "bob", .val "done", .val "b.py", .val 7, .absent, .absent⟩

/-- Unresolved thread for the C2 witness. -/
def c2tU : Thread := ⟨false, false, [c2cU]⟩

/-- Resolved thread for the C2 witness. -/
def c2tR : Thread := ⟨true, false, [c2cR]⟩

/-- Two-thread collection for the C2 witness. -/
def c2T : List Thread := [c2tU, c2tR]

/-- Witness for `c2_sections` on one unresolved plus one resolved thread. -/
theorem c2_sections_witness :
    (∃ t ∈ c2T, t.isResolved = false)
    ∧ (∃ t ∈ c2T, t.isResolved = true)
    ∧ format_threads c2T =
        headerLines c2T
          ++ ("## Unresolved Comments\n" ::
               (unresolvedThreads c2T).flatMap (fun t => format_thread t false))
          ++ ("## Resolved Comments\n" ::
               (resolvedThreads c2T).flatMap (fun t => format_thread t true))
    ∧ (format_thread c2tU false =
        threadHeading c2tU false c2cU :: (format_thread c2tU false).tail
      ∧ ContainsStr (threadHeading c2tU false c2cU) "⚠️  UNRESOLVED")
    ∧ (format_thread c2tR true =
        threadHeading c2tR true c2cR :: (format_thread c2tR true).tail
      ∧ ContainsStr (threadHeading c2tR true c2cR) "✅ RESOLVED") :=
  ⟨by decide, by decide,
    (c2_sections c2T (by decide) (by decide)).1,
    (c2_sections c2T (by decide) (by decide)).2.2.2.1 c2tU (by decide)
      c2cU [] rfl,
    (c2_sections c2T (by decide) (by decide)).2.2.2.2 c2tR (by decide)
      c2cR [] rfl⟩

/-! ### Claim C6 -/

/-- C6: a thread with an empty comment list produces no output block, while
the header total and the displayed resolved/unresolved counts are computed
over the thread list itself, so they still include it. -/
theorem c6_empty_thread (T : List Thread) (t : Thread) (r : Bool)
    (ht : t ∈ T) (hc : t.comments = []) :
    format_thread t r = []
    ∧ (format_threads T).head? =
        some ("# PR Review Comments (" ++ toString T.length ++ " threads)\n")
    ∧ unresolvedCount T + resolvedCount T = T.length
    ∧ 0 < (if t.isResolved then resolvedCount T else unresolvedCount T) := by
  have hsum : (unresolvedThreads T).length + (resolvedThreads T).length = T.length := by
    unfold unresolvedThreads resolvedThreads
    exact length_filter_not_add_length_filter (fun u => u.isResolved) T
  have hres : resolvedCount T = (resolvedThreads T).length := by
    unfold resolvedCount resolvedThreads
    exact List.countP_eq_length_filter _ _
  refine ⟨?_, ?_, ?_, ?_⟩
  · rw [format_thread.eq_def, hc]
  · simp [format_threads, headerLines]
  · unfold unresolvedCount
    omega
  · cases hflag : t.isResolved with
    | true =>
      have hmem : t ∈ resolvedThreads T := List.mem_filter.mpr ⟨ht, hflag⟩
      have hne : (resolvedThreads T) ≠ [] := List.ne_nil_of_mem hmem
      have hpos := List.length_pos.mpr hne
      rw [if_pos rfl]
      omega
    | false =>
      have hmem : t ∈ unresolvedThreads T :=
        List.mem_filter.mpr ⟨ht, by simp [hflag]⟩
      have hne : (unresolvedThreads T) ≠ [] := List.ne_nil_of_mem hmem
      have hpos := List.length_pos.mpr hne
      unfold unresolvedCount
      rw [if_neg Bool.false_ne_true]
      omega

/-- Empty-comment thread for the C6 witness. -/
def c6t : Thread := ⟨false, false, []⟩

/-- Collection for the C6 witness: the empty-comment thread plus one
resolved thread with a comment. -/
def c6T : List Thread :=
  [c6t, ⟨true, false, [⟨some "ann", .val "ok", .val "p.py", .val 1, .absent, .absent⟩]⟩]

/-- Witness for `c6_empty_thread` at a concrete collection. -/
theorem c6_empty_thread_witness :
    c6t ∈ c6T
    ∧ c6t.comments = []
    ∧ (format_thread c6t false = []
      ∧ (format_threads c6T).head? =
          some ("# PR Review Comments (" ++ toString c6T.length ++ " threads)\n")
      ∧ unresolvedCount c6T + resolvedCount c6T = c6T.length
      ∧ 0 < (if c6t.isResolved then resolvedCount c6T else unresolvedCount c6T)) :=
  ⟨by decide, rfl, c6_empty_thread c6T c6t false (by decide) rfl⟩

/-! ### Claim C7 -/

theorem format_thread_mem_heading {t : Thread} {c : Comment} {cs : List Comment}
    (hc : t.comments = c :: cs) (r : Bool) :
    threadHeading t r c ∈ format_thread t r := by
  simp [format_thread, hc]

theorem format_thread_mem_body {t : Thread} {c : Comment} {cs : List Comment}
    (hc : t.comments = c :: cs) (r : Bool) :
    (jGetStr "" c.body ++ "\n") ∈ format_thread t r := by
  simp [format_thread, hc]

theorem format_thread_mem_reply {t : Thread} {c x : Comment} {cs : List Comment}
    (hc : t.comments = c :: cs) (hx : x ∈ cs) (r : Bool) :
    replyLine x ∈ format_thread t r := by
  have hne : cs.isEmpty = false := isEmpty_eq_false_of_mem hx
  have hF : format_thread t r =
      [threadHeading t r c]
      ++ (if truthy c.url then ["[View on GitHub](" ++ jGetStr "" c.url ++ ")\n"] else [])
      ++ (if truthy c.diffHunk then
            ["```diff\n" ++ jGetStr "" c.diffHunk ++ "\n```\n"] else [])
      ++ [jGetStr "" c.body ++ "\n"]
      ++ (if cs.isEmpty then []
          else ("**Replies:**\n" :: cs.map replyLine) ++ [""])
      ++ ["---\n"] := by
    rw [format_thread.eq_def, hc]
  rw [hF]
  refine List.mem_append_left _ (List.mem_append_right _ ?_)
  rw [hne, if_neg Bool.false_ne_true]
  exact List.mem_cons_of_mem _
    (List.mem_append_left _ (List.mem_map_of_mem replyLine hx))

theorem heading_contains_author (t : Thread) (r : Bool) (c : Comment) :
    ContainsStr (threadHeading t r c) (authorStr c.author) := by
  apply containsStr_of_data ("### [" ++ statusStr r t.isOutdated ++ "] ").data
    ((" on `" ++ jGetStr "unknown file" c.path ++ ":" ++ lineStr c.line ++ "`\n").data)
  simp [threadHeading, String.data_append, List.append_assoc]

theorem heading_contains_path (t : Thread) (r : Bool) (c : Comment) :
    ContainsStr (threadHeading t r c) (jGetStr "unknown file" c.path) := by
  apply containsStr_of_data
    ("### [" ++ statusStr r t.isOutdated ++ "] " ++ authorStr c.author ++ " on `").data
    ((":" ++ lineStr c.line ++ "`\n").data)
  simp [threadHeading, String.data_append, List.append_assoc]

theorem heading_contains_line (t : Thread) (r : Bool) (c : Comment) :
    ContainsStr (threadHeading t r c) (lineStr c.line) := by
  apply containsStr_of_data
    ("### [" ++ statusStr r t.isOutdated ++ "] " ++ authorStr c.author ++ " on `" ++
      jGetStr "unknown file" c.path ++ ":").data
    "`\n".data
  simp [threadHeading, String.data_append, List.append_assoc]

theorem bodyRecord_contains (c : Comment) :
    ContainsStr (jGetStr "" c.body ++ "\n") (jGetStr "" c.body) := by
  apply containsStr_of_data [] "\n".data
  simp [String.data_append]

theorem replyLine_contains_author (x : Comment) :
    ContainsStr (replyLine x) (authorStr x.author) := by
  apply containsStr_of_data "- **".data ((":** " ++ jGetStr "" x.body).data)
  simp [replyLine, String.data_append, List.append_assoc]

theorem replyLine_contains_body (x : Comment) :
    ContainsStr (replyLine x) (jGetStr "" x.body) := by
  apply containsStr_of_data ("- **" ++ authorStr x.author ++ ":** ").data []
  simp [replyLine, String.data_append, List.append_assoc]

/-- Primary comment for the C7 counterexample. -/
def c7Primary : Comment :=
  ⟨some "alice", .val "looks wrong", .val "src/a.py", .val 3, .absent, .absent⟩

/-- Reply comment for the C7 counterexample: its `path` value occurs nowhere
else in the data. -/
def c7Reply : Comment :=
  ⟨some "bob", .val "agreed", .val "zqx.txt", .val 9, .absent, .absent⟩

/-- Thread for the C7 counterexample and the C7 witness. -/
def c7Thread : Thread := ⟨false, false, [c7Primary, c7Reply]⟩

/-- Fetched data for the C7 counterexample. -/
def c7Data : List Thread := [c7Thread]

/-- C7 counterexample: a reply's `path` (and `line`) values are never
rendered, so a fetched comment's path need not appear in the output. -/
theorem c7_counterexample :
    (∃ t ∈ c7Data, c7Reply ∈ t.comments)
    ∧ c7Reply.path = .val "zqx.txt"
    ∧ ¬ ContainsStr (renderAll (format_threads c7Data)) "zqx.txt" :=
  ⟨by decide, rfl, by decide⟩

/-- C7 amended: the fields the formatter renders are passed through verbatim —
for the primary comment its author, path, line and body values, and for each
reply its author and body values, all occur as substrings of the rendered
block; a reply's path and line are not rendered. -/
theorem c7_amended (t : Thread) (r : Bool) (c : Comment) (cs : List Comment)
    (hc : t.comments = c :: cs) :
    (∀ a, c.author = some a → ContainsStr (renderAll (format_thread t r)) a)
    ∧ (∀ p, c.path = .val p → ContainsStr (renderAll (format_thread t r)) p)
    ∧ (∀ n, c.line = .val n →
        ContainsStr (renderAll (format_thread t r)) (toString n))
    ∧ (∀ b, c.body = .val b → ContainsStr (renderAll (format_thread t r)) b)
    ∧ (∀ x ∈ cs, ∀ a, x.author = some a →
        ContainsStr (renderAll (format_thread t r)) a)
    ∧ (∀ x ∈ cs, ∀ b, x.body = .val b →
        ContainsStr (renderAll (format_thread t r)) b) := by
  refine ⟨?_, ?_, ?_, ?_, ?_, ?_⟩
  · intro a ha
    have h := heading_contains_author t r c
    rw [ha] at h
    exact containsStr_renderAll (format_thread_mem_heading hc r) h
  · intro p hp
    have h := heading_contains_path t r c
    rw [hp] at h
    exact containsStr_renderAll (format_thread_mem_heading hc r) h
  · intro n hn
    have h := heading_contains_line t r c
    rw [hn] at h
    exact containsStr_renderAll (format_thread_mem_heading hc r) h
  · intro b hb
    have h := bodyRecord_contains c
    have hm := format_thread_mem_body hc r
    rw [hb] at h hm
    exact containsStr_renderAll hm h
  · intro x hx a ha
    have h := replyLine_contains_author x
    rw [ha] at h
    exact containsStr_renderAll (format_thread_mem_reply hc hx r) h
  · intro x hx b hb
    have h := replyLine_contains_body x
    rw [hb] at h
    exact containsStr_renderAll (format_thread_mem_reply hc hx r) h

/-- Witness for `c7_amended` on the two-comment thread. -/
theorem c7_amended_witness :
    c7Thread.comments = c7Primary :: [c7Reply]
    ∧ ContainsStr (renderAll (format_thread c7Thread false)) "alice"
    ∧ ContainsStr (renderAll (format_thread c7Thread false)) "src/a.py"
    ∧ ContainsStr (renderAll (format_thread c7Thread false)) (toString (3 : Int))
    ∧ ContainsStr (renderAll (format_thread c7Thread false)) "looks wrong"
    ∧ ContainsStr (renderAll (format_thread c7Thread false)) "bob"
    ∧ ContainsStr (renderAll (format_thread c7Thread false)) "agreed" :=
  ⟨rfl,
    (c7_amended c7Thread false c7Primary [c7Reply] rfl).1 "alice" rfl,
    (c7_amended c7Thread false c7Primary [c7Reply] rfl).2.1 "src/a.py" rfl,
    (c7_amended c7Thread false c7Primary [c7Reply] rfl).2.2.1 3 rfl,
    (c7_amended c7Thread false c7Primary [c7Reply] rfl).2.2.2.1 "looks wrong" rfl,
    (c7_amended c7Thread false c7Primary [c7Reply] rfl).2.2.2.2.1 c7Reply
      (by decide) "bob" rfl,
    (c7_amended c7Thread false c7Primary [c7Reply] rfl).2.2.2.2.2 c7Reply
      (by decide) "agreed" rfl⟩

/-! ### Claim C10 -/

/-- C10: a reply whose `author` is null is rendered in the Replies sub-list
with the literal `Unknown` as its author, the same default used for the
primary comment. -/
theorem c10_reply_unknown (t : Thread) (r : Bool) (x : Comment)
    (hx : x ∈ t.comments.tail) (ha : x.author = none) :
    replyLine x = "- **Unknown:** " ++ jGetStr "" x.body
    ∧ replyLine x ∈ format_thread t r := by
  rcases hcs : t.comments with _ | ⟨c, cs⟩
  · rw [hcs] at hx
    cases hx
  · rw [hcs] at hx
    refine ⟨?_, format_thread_mem_reply hcs hx r⟩
    show "- **" ++ authorStr x.author ++ ":** " ++ jGetStr "" x.body =
      "- **Unknown:** " ++ jGetStr "" x.body
    rw [ha]
    exact congrArg (fun z => z ++ jGetStr "" x.body) rfl

/-- Null-author reply for the C10 witness. -/
def c10x : Comment := ⟨none, .val "ghost reply", .absent, .absent, .absent, .absent⟩

/-- Thread for the C10 witness: a primary comment plus a null-author reply. -/
def c10T : Thread :=
  ⟨true, false, [⟨some "alice", .val "q", .val "f.py", .val 2, .absent, .absent⟩, c10x]⟩

/-- Witness for `c10_reply_unknown` at a concrete thread. -/
theorem c10_reply_unknown_witness :
    c10x ∈ c10T.comments.tail
    ∧ c10x.author = none
    ∧ (replyLine c10x = "- **Unknown:** " ++ jGetStr "" c10x.body
      ∧ replyLine c10x ∈ format_thread c10T true) :=
  ⟨by decide, rfl, c10_reply_unknown c10T true c10x (by decide) rfl⟩

end FormatPr
